import Mathlib

set_option maxRecDepth 8000

/-!
Verification of the treetime command-line wrapper (`timetree_inference.py`)
against its natural-language specification.  The wrapper's option parsing,
dates parsing, run-argument glue and output decoration are embedded as
executable Lean definitions; engine behaviour that the wrapper merely drives
is modelled from the specification where noted.  Real-valued quantities
(dates, the `Tc` time scale) enter the wrapper only as decimal literals, so
they are embedded exactly as `Dec` values: an integer mantissa `num` and a
decimal exponent `exp` denoting `num / 10 ^ exp`.
-/

/-- An exact decimal `num / 10 ^ exp`: the value of a parsed float literal. -/
structure Dec where
  num : Int
  exp : Nat
deriving DecidableEq, Repr

/-- Comparison of two exact decimals, by cross multiplication. -/
def Dec.lt (a b : Dec) : Bool := a.num * 10 ^ b.exp < b.num * 10 ^ a.exp

/-- Negation of an exact decimal. -/
def Dec.neg (a : Dec) : Dec := { a with num := -a.num }

/-- Model of Python `str.strip()`: remove leading and trailing whitespace. -/
def pyStrip (s : String) : String :=
  String.mk (((s.toList.dropWhile Char.isWhitespace).reverse.dropWhile Char.isWhitespace).reverse)

/-- Helper for `pySplit`: split a character list at every occurrence of `c`. -/
def splitAux (c : Char) : List Char → List Char → List (List Char)
  | [], acc => [acc.reverse]
  | d :: ds, acc => if d = c then acc.reverse :: splitAux c ds [] else splitAux c ds (d :: acc)

/-- Model of Python `str.split(c)`: split at every occurrence of `c`, keeping
empty fields (`"".split(c)` is `[""]`). -/
def pySplit (s : String) (c : Char) : List String :=
  (splitAux c s.toList []).map String.mk

/-- Model of Python `<` on strings: lexicographic comparison of code points. -/
def pyStrLtAux : List Char → List Char → Bool
  | [], [] => false
  | [], _ :: _ => true
  | _ :: _, [] => false
  | a :: as, b :: bs =>
    if a.val < b.val then true else if b.val < a.val then false else pyStrLtAux as bs

/-- Python string comparison `v < w`, as used on Biopython version strings. -/
def pyStrLt (v w : String) : Bool := pyStrLtAux v.toList w.toList

/-- Numeric value of a list of decimal digit characters, most significant first. -/
def decVal (cs : List Char) : Nat :=
  cs.foldl (fun a c => 10 * a + (c.toNat - 48)) 0

/-- Apply an exponent suffix (digits `ds`, negated when `neg`) to `base`;
`Option.none` models Python's `ValueError`. -/
def applyExp (base : Dec) (neg : Bool) (ds : List Char) : Option Dec :=
  if ds ≠ [] ∧ ds.all Char.isDigit then
    some (if neg then { base with exp := base.exp + decVal ds }
          else { base with num := base.num * 10 ^ decVal ds })
  else Option.none

/-- Parse the optional `e`/`E` exponent suffix of a float literal and apply it. -/
def parseExp (base : Dec) : List Char → Option Dec
  | [] => some base
  | c :: rest =>
    if c = 'e' ∨ c = 'E' then
      match rest with
      | '+' :: ds => applyExp base false ds
      | '-' :: ds => applyExp base true ds
      | ds => applyExp base false ds
    else Option.none

/-- Mantissa and exponent of an unsigned Python float literal: digits with an
optional decimal point, then an optional exponent. -/
def pyFloatCore (cs : List Char) : Option Dec :=
  let intPart := cs.takeWhile Char.isDigit
  let rest := cs.dropWhile Char.isDigit
  match rest with
  | '.' :: rest2 =>
    let fracPart := rest2.takeWhile Char.isDigit
    let rest3 := rest2.dropWhile Char.isDigit
    if intPart.isEmpty ∧ fracPart.isEmpty then Option.none
    else
      parseExp
        { num := (decVal intPart * 10 ^ fracPart.length + decVal fracPart : Nat)
          exp := fracPart.length } rest3
  | _ =>
    if intPart.isEmpty then Option.none
    else parseExp { num := (decVal intPart : Nat), exp := 0 } rest

/-- Model of Python `float(s)` on finite decimal literals: surrounding whitespace
is stripped, an optional sign is followed by a mantissa and optional exponent;
`Option.none` models `ValueError`. -/
def pyFloat? (s : String) : Option Dec :=
  match (pyStrip s).toList with
  | '+' :: cs => pyFloatCore cs
  | '-' :: cs => (pyFloatCore cs).map Dec.neg
  | cs => pyFloatCore cs

/-- The value the wrapper binds to `Tc` and passes to `TreeTime.run`
(timetree_inference.py lines 64-72). -/
inductive TcOption where
  | none
  | coalescent (q : Dec)
  | opt
  | skyline
deriving DecidableEq, Repr

/-- The Python literal `1e-5`, the wrapper's threshold below which a numeric
`Tc` disables the coalescent model. -/
def tcThreshold : Dec := { num := 1, exp := 5 }

/-- timetree_inference.py lines 64-72: `Tc = float(params.Tc)` with values below
`1e-5` disabling the coalescent model; when float parsing fails, `"opt"` and
`"skyline"` are accepted and any other string silently becomes `None`. -/
def parseTc (s : String) : TcOption :=
  match pyFloat? s with
  | some q => if Dec.lt q tcThreshold then TcOption.none else TcOption.coalescent q
  | Option.none =>
    if s = "opt" then TcOption.opt
    else if s = "skyline" then TcOption.skyline
    else TcOption.none

/-- A `Tc` string the spec recognizes: a float literal, `"opt"`, or `"skyline"`. -/
def tcSupported (s : String) : Bool :=
  (pyFloat? s).isSome || s == "opt" || s == "skyline"

/-- Follows the spec's words, for comparison with `parseTc`: an unsupported `Tc`
value is a fatal configuration error reported before any inference runs. -/
def parseTcChecked (s : String) : Except String TcOption :=
  match pyFloat? s with
  | some q => Except.ok (if Dec.lt q tcThreshold then TcOption.none else TcOption.coalescent q)
  | Option.none =>
    if s = "opt" then Except.ok TcOption.opt
    else if s = "skyline" then Except.ok TcOption.skyline
    else Except.error ("unsupported Tc value: " ++ s)

/-- One line of the dates csv (timetree_inference.py lines 54-59):
`name, date = line.strip().split(',')[:2]` followed by `float(date)`; any
exception means the line contributes nothing. -/
def parseDateLine (line : String) : Option (String × Dec) :=
  match pySplit (pyStrip line) ',' with
  | name :: date :: _ =>
    match pyFloat? date with
    | some q => some (name, q)
    | Option.none => Option.none
  | _ => Option.none

/-- Python dict assignment `d[k] = v`: replace the value in place when the key is
present, otherwise append the binding. -/
def dictInsert (d : List (String × Dec)) (k : String) (v : Dec) : List (String × Dec) :=
  if d.any (fun p => p.1 == k) then
    d.map (fun p => if p.1 == k then (k, v) else p)
  else d ++ [(k, v)]

/-- The dates dictionary built by the wrapper's dates-parsing loop
(timetree_inference.py lines 52-59); lines raising an exception are skipped. -/
def parseDates (lines : List String) : List (String × Dec) :=
  lines.foldl
    (fun acc line =>
      match parseDateLine line with
      | some (n, d) => dictInsert acc n d
      | Option.none => acc)
    []

/-- Follows the spec's words, for comparison with `parseDates`: a malformed date
is a fatal configuration error naming the offending sample. -/
def parseDatesChecked (lines : List String) : Except String (List (String × Dec)) :=
  lines.foldlM
    (fun acc line =>
      match pySplit (pyStrip line) ',' with
      | name :: date :: _ =>
        match pyFloat? date with
        | some q => Except.ok (dictInsert acc name q)
        | Option.none => Except.error ("malformed date for sample " ++ name)
      | _ => Except.ok acc)
    []

/-- argparse `action='store_true'`: the parsed value is `True` when the flag
occurs on the command line and the declared default otherwise. -/
def storeTrueFlag (dflt present : Bool) : Bool :=
  if present then true else dflt

/-- The value of the `--relax` option after the wrapper's massaging
(timetree_inference.py lines 31, 46-47): absent means `False`, a bare `--relax`
becomes `True`, and explicit arguments are kept as given. -/
inductive RelaxValue where
  | off
  | on
  | strengths (args : List String)
deriving DecidableEq, Repr

/-- The `--relax` option as it appears on the command line: `Option.none` when absent,
otherwise the (possibly empty) list of its arguments. -/
def parsedRelax (r : Option (List String)) : RelaxValue :=
  match r with
  | Option.none => RelaxValue.off
  | some [] => RelaxValue.on
  | some args => RelaxValue.strengths args

/-- The command line accepted by the wrapper: each store_true flag is recorded
by whether it is present, the remaining options by their parsed values. -/
structure CmdLine where
  infer_gtr_present : Bool
  optimize_branch_length_present : Bool
  keep_polytomies_present : Bool
  plot_present : Bool
  reroot : String
  relaxArgs : Option (List String)
  max_iter : Nat
  verbose : Nat
  TcStr : String
deriving DecidableEq, Repr

/-- Parsed `--infer_gtr` (line 24): store_true with default `True`. -/
def parsedInferGtr (c : CmdLine) : Bool := storeTrueFlag true c.infer_gtr_present

/-- Parsed `--optimize_branch_length` (lines 27-28): store_true, default `False`. -/
def parsedOptimizeBranchLength (c : CmdLine) : Bool :=
  storeTrueFlag false c.optimize_branch_length_present

/-- Parsed `--keep_polytomies` (lines 29-30): store_true, default `False`. -/
def parsedKeepPolytomies (c : CmdLine) : Bool :=
  storeTrueFlag false c.keep_polytomies_present

/-- The `gtr` argument of the `TreeTime` constructor (line 78): the fixed
string `'JC69'`, whatever the command line. -/
def treeTimeGtrArg : String := "JC69"

/-- Whether the wrapper prints the inferred-GTR report (lines 87-89:
`if params.infer_gtr:`). -/
def gtrReportShown (c : CmdLine) : Bool := parsedInferGtr c

/-- The keyword arguments the wrapper passes to `TreeTime.run` (lines 79-82). -/
structure RunArgs where
  root : String
  relaxedClock : RelaxValue
  resolvePolytomies : Bool
  Tc : TcOption
  maxIter : Nat
  useInputBranchLength : Bool
deriving DecidableEq, Repr

/-- timetree_inference.py lines 79-82: `root=params.reroot`,
`relaxed_clock=params.relax`, `resolve_polytomies=(not params.keep_polytomies)`,
`Tc=Tc`, `max_iter=params.max_iter`,
`use_input_branch_length=(not params.optimize_branch_length)`. -/
def runArgs (c : CmdLine) : RunArgs :=
  { root := c.reroot
    relaxedClock := parsedRelax c.relaxArgs
    resolvePolytomies := !parsedKeepPolytomies c
    Tc := parseTc c.TcStr
    maxIter := c.max_iter
    useInputBranchLength := !parsedOptimizeBranchLength c }

/-- Modelled from the spec: when `use_input_branch_length` is set the engine
keeps the input branch lengths, otherwise it replaces them with lengths
re-estimated from the ancestral reconstruction (spec 4.3); only this selection
is modelled, the per-branch optimization itself lives outside src/. -/
def effectiveBranchLengths (useInput : Bool) (input reestimated : List Dec) : List Dec :=
  if useInput then input else reestimated

/-- The outcome of the engine's outer loop: the final state, the number of
outer iterations performed, and whether the convergence criterion was met. -/
structure RunOutcome (S : Type) where
  state : S
  iterations : Nat
  converged : Bool
deriving DecidableEq, Repr

/-- Modelled from the spec: the outer iteration of `TreeTime.run` (spec 4.5,
which lives outside src/) — perform one outer iteration, stop early when the
convergence criterion holds between consecutive states, and otherwise stop
after `max_iter` iterations, always returning the current state. -/
def runLoop {S : Type} (step : S → S) (conv : S → S → Bool) : Nat → S → RunOutcome S
  | 0, s => { state := s, iterations := 0, converged := false }
  | maxIter + 1, s =>
    let s' := step s
    if conv s s' then { state := s', iterations := 1, converged := true }
    else
      let r := runLoop step conv maxIter s'
      { state := r.state, iterations := r.iterations + 1, converged := r.converged }

/-- The skyline object returned by `merger_model.skyline_inferred`: parallel
lists of times (`x`) and rates (`y`). -/
structure Skyline where
  x : List Dec
  y : List Dec
deriving DecidableEq, Repr

/-- timetree_inference.py lines 93-97: when `Tc == 'skyline'` the wrapper calls
`skyline_inferred(gen=50)` and reports `zip(skyline.x, skyline.y)` in order;
otherwise nothing is reported.  `inferSkyline` abstracts the engine's
`skyline_inferred` method. -/
def skylineReport (tc : TcOption) (inferSkyline : Nat → Skyline) : Option (List (Dec × Dec)) :=
  if tc = TcOption.skyline then
    some (((inferSkyline 50).x).zip ((inferSkyline 50).y))
  else Option.none

/-- The fields of a Biopython clade that the wrapper's decoration loop touches
or could touch (timetree_inference.py lines 120-131). -/
structure PNode where
  name : String
  isTerminal : Bool
  hasParent : Bool
  confidence : Option Dec
  comment : Option String
  mutations : List (Char × Nat × Char)
  branchLength : Dec
  date : Dec
deriving DecidableEq, Repr

/-- Python `a + str(pos) + d` for one mutation triple (line 131). -/
def mutStr (m : Char × Nat × Char) : String :=
  String.singleton m.1 ++ toString m.2.1 ++ String.singleton m.2.2

/-- The `&mutations="…"` comment attached to a decorated node (line 131). -/
def mutComment (ms : List (Char × Nat × Char)) : String :=
  "&mutations=\"" ++ String.intercalate "_" (ms.map mutStr) ++ "\""

/-- Python `'%03d' % n`: `n` zero-padded to at least three digits. -/
def pad3 (n : Nat) : String :=
  let s := toString n
  if s.length < 3 then String.mk (List.replicate (3 - s.length) '0') ++ s else s

/-- Python `name[:35]`: the first 35 characters. -/
def take35 (s : String) : String := String.mk (s.toList.take 35)

/-- One step of the wrapper's decoration loop (lines 120-131), threading the
`terminal_count` counter: the root (`n.up is None`) is skipped; for any other
node `confidence` is cleared, then — only under Biopython versions before
`"1.69"` — a terminal name longer than 40 characters is truncated to its first
35 characters plus `'_%03d' % terminal_count`, and finally a mutations comment
is attached when the mutation list is nonempty. -/
def decorateNode (bioversion : String) (count : Nat) (n : PNode) : PNode × Nat :=
  if n.hasParent = false then (n, count)
  else
    let n1 : PNode := { n with confidence := Option.none }
    let truncates : Bool :=
      n1.isTerminal && decide (n1.name.length > 40) && pyStrLt bioversion "1.69"
    let n2 : PNode :=
      if truncates then { n1 with name := take35 n1.name ++ "_" ++ pad3 count } else n1
    let count2 : Nat := if truncates then count + 1 else count
    let n3 : PNode :=
      if n2.mutations.length ≠ 0 then { n2 with comment := some (mutComment n2.mutations) }
      else n2
    (n3, count2)

/-- The wrapper's decoration loop over the nodes in `find_clades()` order. -/
def decorateTree (bioversion : String) (nodes : List PNode) : List PNode :=
  (nodes.foldl
    (fun (acc : List PNode × Nat) n =>
      let r := decorateNode bioversion acc.2 n
      (acc.1 ++ [r.1], r.2))
    ([], 0)).1

/-- The decoration of a single node when no truncation applies: the root is
untouched; any other node has `confidence` cleared and receives the mutations
comment exactly when its mutation list is nonempty, all other fields unchanged. -/
def decoratePure (n : PNode) : PNode :=
  if n.hasParent = false then n
  else
    { n with
      confidence := Option.none
      comment := if n.mutations.length ≠ 0 then some (mutComment n.mutations) else n.comment }

mutual
/-- Modelled from the spec (spec 3, data model): a rooted tree node owning an
ordered list of children; `Forest` is that child list (a mutual inductive so
that all tree functions compute structurally). -/
inductive PTree where
  | node (name : String) (children : Forest)
deriving Repr, DecidableEq
inductive Forest where
  | nil
  | cons (head : PTree) (tail : Forest)
deriving Repr, DecidableEq
end

/-- Number of children in a forest. -/
def forestLength : Forest → Nat
  | Forest.nil => 0
  | Forest.cons _ ts => forestLength ts + 1

/-- Modelled from the spec (spec 4.3): the chain of fresh bifurcations that
polytomy resolution builds from the second child onward — `chainOf t us` pairs
`t` with the chain of `us` under a fresh unnamed node. -/
def chainOf : PTree → Forest → PTree
  | t, Forest.nil => t
  | t, Forest.cons u us => PTree.node "" (Forest.cons t (Forest.cons (chainOf u us) Forest.nil))

/-- Modelled from the spec (spec 4.3): rebuild a resolved node's child list —
two or fewer children stay as they are, more than two are chained into a
sequence of bifurcations. -/
def resolveChildren : Forest → Forest
  | Forest.nil => Forest.nil
  | Forest.cons t Forest.nil => Forest.cons t Forest.nil
  | Forest.cons t (Forest.cons u Forest.nil) => Forest.cons t (Forest.cons u Forest.nil)
  | Forest.cons t (Forest.cons u (Forest.cons v rest)) =>
    Forest.cons t (Forest.cons (chainOf u (Forest.cons v rest)) Forest.nil)

mutual
/-- Modelled from the spec (spec 4.3, which lives outside src/): polytomy
resolution — every multifurcation is replaced by a sequence of bifurcations,
recursively in every subtree. -/
def resolve : PTree → PTree
  | PTree.node nm cs => PTree.node nm (resolveChildren (resolveForest cs))
def resolveForest : Forest → Forest
  | Forest.nil => Forest.nil
  | Forest.cons t ts => Forest.cons (resolve t) (resolveForest ts)
end

mutual
/-- Strict bifurcation: every internal node has exactly two children. -/
def isBinary : PTree → Bool
  | PTree.node _ cs => (forestLength cs == 0 || forestLength cs == 2) && isBinaryForest cs
def isBinaryForest : Forest → Bool
  | Forest.nil => true
  | Forest.cons t ts => isBinary t && isBinaryForest ts
end

mutual
/-- No node of the tree has exactly one child (phylogenetic well-formedness:
an internal node separates at least two lineages). -/
def noUnary : PTree → Bool
  | PTree.node _ cs => (forestLength cs != 1) && noUnaryForest cs
def noUnaryForest : Forest → Bool
  | Forest.nil => true
  | Forest.cons t ts => noUnary t && noUnaryForest ts
end

/-- Modelled from the spec: `TreeTime.run` resolves polytomies exactly when its
`resolve_polytomies` argument is set; only that selection is modelled here. -/
def runTreeTopology (resolveP : Bool) (t : PTree) : PTree :=
  if resolveP then resolve t else t

/-- A command line whose `--Tc` value is not a float and not `"opt"`/`"skyline"`. -/
def cBogusTc : CmdLine :=
  { infer_gtr_present := false
    optimize_branch_length_present := false
    keep_polytomies_present := false
    plot_present := false
    reroot := "best"
    relaxArgs := Option.none
    max_iter := 2
    verbose := 1
    TcStr := "bogus" }

/-- A command line using the declared `--Tc` default `"0.0"`. -/
def cDefaultTc : CmdLine := { cBogusTc with TcStr := "0.0" }

/-- A command line requesting the skyline coalescent model. -/
def cSkylineTc : CmdLine := { cBogusTc with TcStr := "skyline" }

/-- A concrete skyline-samples function standing in for `skyline_inferred`. -/
def sampleSkylineFun : Nat → Skyline :=
  fun _ => { x := [⟨20001, 1⟩, ⟨20015, 1⟩], y := [⟨3, 0⟩, ⟨4, 0⟩] }

/-- A terminal non-root node whose 41-character name exceeds the truncation
threshold. -/
def nLongA : PNode :=
  { name := String.mk (List.replicate 41 'a')
    isTerminal := true
    hasParent := true
    confidence := some ⟨9, 1⟩
    comment := Option.none
    mutations := []
    branchLength := ⟨1, 1⟩
    date := ⟨20005, 1⟩ }

/-- A second long-named terminal non-root node, with a mutation. -/
def nLongB : PNode :=
  { name := String.mk (List.replicate 41 'b')
    isTerminal := true
    hasParent := true
    confidence := some ⟨8, 1⟩
    comment := Option.none
    mutations := [('A', 17, 'G')]
    branchLength := ⟨2, 1⟩
    date := ⟨20006, 1⟩ }

/-- A root node (no parent). -/
def nRoot : PNode :=
  { name := "root"
    isTerminal := false
    hasParent := false
    confidence := some ⟨5, 1⟩
    comment := some "kept"
    mutations := [('C', 3, 'T')]
    branchLength := ⟨0, 0⟩
    date := ⟨19990, 1⟩ }

/-- A short-named non-root node carrying mutations. -/
def nMut : PNode :=
  { name := "s1"
    isTerminal := true
    hasParent := true
    confidence := some ⟨7, 1⟩
    comment := Option.none
    mutations := [('A', 5, 'C'), ('G', 11, 'T')]
    branchLength := ⟨3, 1⟩
    date := ⟨20010, 1⟩ }

/-- A three-leaf star tree: the root is a polytomy. -/
def tStar : PTree :=
  PTree.node "r"
    (Forest.cons (PTree.node "a" Forest.nil)
      (Forest.cons (PTree.node "b" Forest.nil)
        (Forest.cons (PTree.node "c" Forest.nil) Forest.nil)))

/-- Polytomy resolution does not change how many children a node has until the
chaining step: mapping `resolve` over a forest preserves its length. -/
theorem forestLength_resolveForest : ∀ f : Forest, forestLength (resolveForest f) = forestLength f
  | Forest.nil => rfl
  | Forest.cons t ts => by
    simp [resolveForest, forestLength, forestLength_resolveForest ts]

/-- A chain of bifurcations built from binary trees is binary. -/
theorem chainOf_binary : ∀ (t : PTree) (us : Forest),
    isBinary t = true → isBinaryForest us = true → isBinary (chainOf t us) = true
  | t, Forest.nil, ht, _ => by simpa [chainOf] using ht
  | t, Forest.cons u us, ht, hus => by
    have hu : isBinary u = true := by
      have h := hus
      simp [isBinaryForest] at h
      exact h.1
    have hus' : isBinaryForest us = true := by
      have h := hus
      simp [isBinaryForest] at h
      exact h.2
    have hc := chainOf_binary u us hu hus'
    simp [chainOf, isBinary, isBinaryForest, forestLength, ht, hc]

/-- Rebuilding a child list of binary trees — provided it is not a single
child — yields zero or two children, all binary. -/
theorem resolveChildren_binary (f : Forest) (hlen : forestLength f ≠ 1)
    (hbin : isBinaryForest f = true) :
    ((forestLength (resolveChildren f) == 0 || forestLength (resolveChildren f) == 2)
      && isBinaryForest (resolveChildren f)) = true := by
  match f with
  | Forest.nil => rfl
  | Forest.cons t Forest.nil => simp [forestLength] at hlen
  | Forest.cons t (Forest.cons u Forest.nil) =>
    simp [isBinaryForest] at hbin
    simp [resolveChildren, forestLength, isBinaryForest, hbin.1, hbin.2]
  | Forest.cons t (Forest.cons u (Forest.cons v rest)) =>
    simp [isBinaryForest] at hbin
    have hchain := chainOf_binary u (Forest.cons v rest) hbin.2.1 (by
      simp [isBinaryForest, hbin.2.2.1, hbin.2.2.2])
    simp [resolveChildren, forestLength, isBinaryForest, hbin.1, hchain]

mutual
/-- Polytomy resolution of a tree without unary nodes is strictly bifurcating. -/
theorem resolve_binary : ∀ t : PTree, noUnary t = true → isBinary (resolve t) = true
  | PTree.node nm cs, h => by
    simp [noUnary] at h
    have hf := resolveForest_binary cs h.2
    have hlen : forestLength (resolveForest cs) ≠ 1 := by
      rw [forestLength_resolveForest]
      exact h.1
    have hres := resolveChildren_binary (resolveForest cs) hlen hf
    simp [resolve, isBinary]
    simp at hres
    exact hres
/-- Forest version of `resolve_binary`. -/
theorem resolveForest_binary : ∀ f : Forest, noUnaryForest f = true → isBinaryForest (resolveForest f) = true
  | Forest.nil, _ => rfl
  | Forest.cons t ts, h => by
    simp [noUnaryForest] at h
    simp [resolveForest, isBinaryForest, resolve_binary t h.1, resolveForest_binary ts h.2]
end

/-- The run loop never exceeds its iteration budget. -/
theorem runLoop_iterations_le {S : Type} (step : S → S) (conv : S → S → Bool) :
    ∀ (k : Nat) (s : S), (runLoop step conv k s).iterations ≤ k
  | 0, s => Nat.le_refl 0
  | k + 1, s => by
    by_cases hc : conv s (step s) = true
    · simp [runLoop, hc]
    · simp only [runLoop, if_neg hc]
      exact Nat.succ_le_succ (runLoop_iterations_le step conv k (step s))

/-- The run loop's final state is the iterate of the step function at the
reported iteration count: the result is always a genuinely computed state. -/
theorem runLoop_state_iterate {S : Type} (step : S → S) (conv : S → S → Bool) :
    ∀ (k : Nat) (s : S),
      (runLoop step conv k s).state = Nat.iterate step (runLoop step conv k s).iterations s
  | 0, s => rfl
  | k + 1, s => by
    by_cases hc : conv s (step s) = true
    · simp [runLoop, hc]
    · simp only [runLoop, if_neg hc]
      have ih := runLoop_state_iterate step conv k (step s)
      simp only [ih]
      exact (Function.iterate_succ_apply step _ s).symm

/-- Under a Biopython version not below `"1.69"` the decoration of one node is
exactly `decoratePure` and leaves the counter alone. -/
theorem decorateNode_pure (bv : String) (h : pyStrLt bv "1.69" = false)
    (count : Nat) (n : PNode) :
    decorateNode bv count n = (decoratePure n, count) := by
  by_cases hp : n.hasParent = false
  · simp [decorateNode, decoratePure, hp]
  · by_cases hm : n.mutations.length ≠ 0
    · simp [decorateNode, decoratePure, hp, h, hm]
    · simp [decorateNode, decoratePure, hp, h, hm]

/-- Accumulator form of the decoration loop under a modern Biopython version. -/
theorem decorateTree_aux (bv : String) (h : pyStrLt bv "1.69" = false) :
    ∀ (nodes : List PNode) (acc : List PNode) (count : Nat),
      (nodes.foldl
        (fun (a : List PNode × Nat) n =>
          let r := decorateNode bv a.2 n
          (a.1 ++ [r.1], r.2)) (acc, count)).1 = acc ++ nodes.map decoratePure
  | [], acc, count => by simp
  | n :: ns, acc, count => by
    rw [List.foldl_cons]
    have hstep :
        (let r := decorateNode bv (acc, count).2 n
         ((acc, count).1 ++ [r.1], r.2)) = (acc ++ [decoratePure n], count) := by
      simp [decorateNode_pure bv h]
    rw [hstep, decorateTree_aux bv h ns (acc ++ [decoratePure n]) count]
    simp

/-- Under a Biopython version not below `"1.69"` the decoration loop is the
per-node map `decoratePure`. -/
theorem decorateTree_modern (bv : String) (h : pyStrLt bv "1.69" = false)
    (nodes : List PNode) :
    decorateTree bv nodes = nodes.map decoratePure := by
  unfold decorateTree
  simpa using decorateTree_aux bv h nodes [] 0

/-- The map `decoratePure` never changes a node's name. -/
theorem decoratePure_name (n : PNode) : (decoratePure n).name = n.name := by
  unfold decoratePure
  by_cases hp : n.hasParent = false <;> simp [hp]

/-- C1 counterexample: `"bogus"` is not a supported `Tc` value (not a float
literal, not `"opt"` or `"skyline"`), yet the wrapper reports no error — option
parsing silently yields `Tc = None` and the run arguments are fully formed, so
inference proceeds; the spec's checked parsing would have reported a
configuration error instead. -/
theorem tc_unsupported_counterexample :
    tcSupported "bogus" = false
    ∧ parseTc "bogus" = TcOption.none
    ∧ (runArgs cBogusTc).Tc = TcOption.none
    ∧ parseTcChecked "bogus" = Except.error "unsupported Tc value: bogus" :=
  ⟨rfl, rfl, rfl, rfl⟩

/-- C1 amended: for every command-line invocation with an unsupported `Tc`
value, the wrapper does not report an error; it silently sets `Tc = None`
(disabling the coalescent model) and proceeds with inference. -/
theorem tc_unsupported_silently_disabled (c : CmdLine)
    (h : tcSupported c.TcStr = false) :
    parseTc c.TcStr = TcOption.none ∧ (runArgs c).Tc = TcOption.none := by
  have hmain : parseTc c.TcStr = TcOption.none := by
    simp only [tcSupported, Bool.or_eq_false_iff, beq_eq_false_iff_ne, ne_eq] at h
    obtain ⟨⟨h1, h2⟩, h3⟩ := h
    unfold parseTc
    cases hpf : pyFloat? c.TcStr with
    | none => simp [h2, h3]
    | some q => rw [hpf] at h1; simp at h1
  exact ⟨hmain, hmain⟩

/-- C1 witness: the amended claim at the concrete command line `cBogusTc`. -/
theorem tc_unsupported_silently_disabled_witness :
    tcSupported cBogusTc.TcStr = false
    ∧ (parseTc cBogusTc.TcStr = TcOption.none ∧ (runArgs cBogusTc).Tc = TcOption.none) :=
  ⟨rfl, tc_unsupported_silently_disabled cBogusTc rfl⟩

/-- C2 counterexample: the dates line `"B,oops"` has a malformed date, yet the
wrapper reports no error naming `B` — the line is silently skipped and parsing
continues to the next line; the spec's checked parsing would have aborted
naming sample `B`. -/
theorem malformed_date_counterexample :
    parseDateLine "B,oops" = Option.none
    ∧ parseDates ["A,2000.5", "B,oops", "C,2001.5"]
        = [("A", ⟨20005, 1⟩), ("C", ⟨20015, 1⟩)]
    ∧ parseDatesChecked ["A,2000.5", "B,oops", "C,2001.5"]
        = Except.error "malformed date for sample B" :=
  ⟨rfl, rfl, rfl⟩

/-- C2 amended: a dates line whose date field is malformed is silently skipped —
the resulting dates dictionary is exactly the one obtained without that line,
and parsing continues to completion with no error. -/
theorem malformed_date_line_skipped (pre post : List String) (line : String)
    (h : parseDateLine line = Option.none) :
    parseDates (pre ++ line :: post) = parseDates (pre ++ post) := by
  unfold parseDates
  rw [List.foldl_append, List.foldl_append, List.foldl_cons]
  simp only [h]

/-- C2 witness: the amended claim at a concrete malformed line. -/
theorem malformed_date_line_skipped_witness :
    parseDateLine "B,oops" = Option.none
    ∧ parseDates (["A,2000.5"] ++ "B,oops" :: ["C,2001.5"])
        = parseDates (["A,2000.5"] ++ ["C,2001.5"]) :=
  ⟨rfl, malformed_date_line_skipped ["A,2000.5"] ["C,2001.5"] "B,oops" rfl⟩

/-- C9: every numeric `Tc` value strictly below `1e-5` disables the coalescent
model — the engine receives `Tc = None`, so by default no coalescent prior is
applied. -/
theorem small_tc_disables_coalescent (c : CmdLine) (q : Dec)
    (hq : pyFloat? c.TcStr = some q) (hlt : Dec.lt q tcThreshold = true) :
    (runArgs c).Tc = TcOption.none := by
  have hmain : parseTc c.TcStr = TcOption.none := by
    unfold parseTc
    rw [hq]
    simp [hlt]
  exact hmain

/-- C9 witness: the claim at the default command line, whose `Tc` string is the
declared default `"0.0"`. -/
theorem small_tc_disables_coalescent_witness :
    pyFloat? cDefaultTc.TcStr = some ⟨0, 1⟩
    ∧ Dec.lt ⟨0, 1⟩ tcThreshold = true
    ∧ (runArgs cDefaultTc).Tc = TcOption.none :=
  ⟨rfl, rfl, small_tc_disables_coalescent cDefaultTc ⟨0, 1⟩ rfl rfl⟩

/-- C3 counterexample: under Biopython `"1.68"` (older than `"1.69"`) the
wrapper does reproduce the historical truncation — the 41-character leaf name
of `nLongA` leaves the decoration pass truncated to 35 characters plus a
counter suffix, not intact. -/
theorem leaf_name_truncation_counterexample :
    pyStrLt "1.68" "1.69" = true
    ∧ (decorateTree "1.68" [nLongA]).map PNode.name
        = [String.mk (List.replicate 35 'a') ++ "_000"]
    ∧ (decorateTree "1.68" [nLongA]).map PNode.name ≠ [nLongA.name] := by
  refine ⟨rfl, by decide, by decide⟩

/-- C3 amended: leaf names are left intact by the wrapper exactly when the
installed Biopython version is not below `"1.69"` (Python string comparison);
under older versions terminal names longer than 40 characters are truncated. -/
theorem leaf_names_intact_modern (bv : String) (h : pyStrLt bv "1.69" = false)
    (nodes : List PNode) :
    (decorateTree bv nodes).map PNode.name = nodes.map PNode.name := by
  rw [decorateTree_modern bv h, List.map_map]
  exact List.map_congr_left fun n _ => decoratePure_name n

/-- C3 witness: the amended claim at Biopython version `"1.69"` on a concrete
node list. -/
theorem leaf_names_intact_modern_witness :
    pyStrLt "1.69" "1.69" = false
    ∧ (decorateTree "1.69" [nRoot, nMut, nLongA]).map PNode.name
        = [nRoot, nMut, nLongA].map PNode.name :=
  ⟨rfl, leaf_names_intact_modern "1.69" rfl [nRoot, nMut, nLongA]⟩

/-- C10 counterexample: under Biopython `"1.68"` the decoration pass modifies a
field other than `confidence` and `comment` — the non-root node `nLongB` has
its name changed. -/
theorem decoration_pass_counterexample :
    nLongB.hasParent = true
    ∧ (decorateTree "1.68" [nLongB]).map PNode.name ≠ [nLongB.name] := by
  refine ⟨rfl, by decide⟩

/-- C10 amended: provided the Biopython version is not below `"1.69"`, the
decoration pass maps every node independently: the root (no parent) is left
completely unchanged, every non-root node has its `confidence` cleared and
receives the mutations comment exactly when its mutation list is nonempty, and
no other field of any node is modified.  (Under older versions, long terminal
names are additionally truncated.) -/
theorem decoration_pass_frame (bv : String) (h : pyStrLt bv "1.69" = false)
    (nodes : List PNode) :
    decorateTree bv nodes = nodes.map decoratePure
    ∧ (∀ n : PNode, n.hasParent = false → decoratePure n = n)
    ∧ (∀ n : PNode, n.hasParent = true →
        (decoratePure n).confidence = Option.none
        ∧ (decoratePure n).comment
            = (if n.mutations.length ≠ 0 then some (mutComment n.mutations) else n.comment)
        ∧ (decoratePure n).name = n.name
        ∧ (decoratePure n).isTerminal = n.isTerminal
        ∧ (decoratePure n).hasParent = n.hasParent
        ∧ (decoratePure n).mutations = n.mutations
        ∧ (decoratePure n).branchLength = n.branchLength
        ∧ (decoratePure n).date = n.date) := by
  refine ⟨decorateTree_modern bv h nodes, ?_, ?_⟩
  · intro n hp
    simp [decoratePure, hp]
  · intro n hp
    have hp' : ¬ (n.hasParent = false) := by simp [hp]
    simp [decoratePure, hp']

/-- C10 witness: the amended claim at Biopython version `"2.0"` on a concrete
node list containing the root and a mutated non-root node. -/
theorem decoration_pass_frame_witness :
    pyStrLt "2.0" "1.69" = false
    ∧ decorateTree "2.0" [nRoot, nMut] = [nRoot, nMut].map decoratePure :=
  ⟨rfl, (decoration_pass_frame "2.0" rfl [nRoot, nMut]).1⟩

/-- C4: the run loop performs at most `max_iter` outer iterations; its final
state is the genuine iterate of the step function at the reported iteration
count (a fully populated best-effort result, never a failure); and with
`max_iter = 1` exactly one outer iteration is performed. -/
theorem run_bounded_by_max_iter {S : Type} (step : S → S) (conv : S → S → Bool)
    (maxIter : Nat) (s : S) :
    (runLoop step conv maxIter s).iterations ≤ maxIter
    ∧ (runLoop step conv maxIter s).state
        = Nat.iterate step (runLoop step conv maxIter s).iterations s
    ∧ (maxIter = 1 →
        (runLoop step conv maxIter s).iterations = 1
        ∧ (runLoop step conv maxIter s).state = step s) := by
  refine ⟨runLoop_iterations_le step conv maxIter s,
    runLoop_state_iterate step conv maxIter s, ?_⟩
  intro h1
  subst h1
  by_cases hc : conv s (step s) = true <;> simp [runLoop, hc]

/-- C4 witness: the claim at `max_iter = 1` with a concrete step function that
never converges. -/
theorem run_bounded_by_max_iter_witness :
    (runLoop Nat.succ (fun _ _ => false) 1 0).iterations = 1
    ∧ (runLoop Nat.succ (fun _ _ => false) 1 0).state = Nat.succ 0 :=
  (run_bounded_by_max_iter Nat.succ (fun _ _ => false) 1 0).2.2 rfl

/-- C5: with `Tc = "skyline"` the wrapper passes `skyline` to the engine and,
after the run, obtains the skyline via `skyline_inferred` with 50 generations
per year and reports the ordered pairing of its times with its rates. -/
theorem skyline_reported (c : CmdLine) (inferSkyline : Nat → Skyline)
    (h : c.TcStr = "skyline") :
    (runArgs c).Tc = TcOption.skyline
    ∧ skylineReport (runArgs c).Tc inferSkyline
        = some (((inferSkyline 50).x).zip ((inferSkyline 50).y)) := by
  have hTc : (runArgs c).Tc = TcOption.skyline := by
    show parseTc c.TcStr = TcOption.skyline
    rw [h]
    rfl
  refine ⟨hTc, ?_⟩
  rw [hTc]
  rfl

/-- C5 witness: the claim at the concrete skyline command line and a concrete
skyline function. -/
theorem skyline_reported_witness :
    cSkylineTc.TcStr = "skyline"
    ∧ ((runArgs cSkylineTc).Tc = TcOption.skyline
      ∧ skylineReport (runArgs cSkylineTc).Tc sampleSkylineFun
          = some (((sampleSkylineFun 50).x).zip ((sampleSkylineFun 50).y))) :=
  ⟨rfl, skyline_reported cSkylineTc sampleSkylineFun rfl⟩

/-- C6: the wrapper enables polytomy resolution exactly when the
`--keep_polytomies` flag is absent, and when it is absent the resolved tree is
strictly bifurcating — every internal node has exactly two children (for any
input tree without single-child nodes). -/
theorem polytomies_resolved_unless_kept (c : CmdLine) (t : PTree)
    (h : noUnary t = true) :
    (runArgs c).resolvePolytomies = !c.keep_polytomies_present
    ∧ (c.keep_polytomies_present = false →
        isBinary (runTreeTopology (runArgs c).resolvePolytomies t) = true) := by
  have hflag : (runArgs c).resolvePolytomies = !c.keep_polytomies_present := by
    show (!parsedKeepPolytomies c) = !c.keep_polytomies_present
    cases hk : c.keep_polytomies_present <;>
      simp [parsedKeepPolytomies, storeTrueFlag, hk]
  refine ⟨hflag, ?_⟩
  intro hk
  rw [hflag, hk]
  simpa [runTreeTopology] using resolve_binary t h

/-- C6 witness: the claim at a concrete command line without
`--keep_polytomies` and the three-leaf star tree. -/
theorem polytomies_resolved_unless_kept_witness :
    noUnary tStar = true
    ∧ ((runArgs cDefaultTc).resolvePolytomies = !cDefaultTc.keep_polytomies_present
      ∧ (cDefaultTc.keep_polytomies_present = false →
          isBinary (runTreeTopology (runArgs cDefaultTc).resolvePolytomies tStar) = true)) :=
  ⟨rfl, polytomies_resolved_unless_kept cDefaultTc tStar rfl⟩

/-- C7: the engine's `use_input_branch_length` argument is the negation of the
`--optimize_branch_length` flag, so branch lengths are re-estimated exactly
when the flag is set and the input branch lengths are used otherwise. -/
theorem use_input_branch_length_negation (c : CmdLine) (input reestimated : List Dec) :
    (runArgs c).useInputBranchLength = !c.optimize_branch_length_present
    ∧ effectiveBranchLengths (runArgs c).useInputBranchLength input reestimated
        = (if c.optimize_branch_length_present then reestimated else input) := by
  cases ho : c.optimize_branch_length_present <;>
    simp [runArgs, parsedOptimizeBranchLength, storeTrueFlag, effectiveBranchLengths, ho]

/-- C8: `--infer_gtr` is declared store_true with default `True`, so its parsed
value is `True` for every accepted command line; the inferred-GTR report is
therefore unconditionally printed, while the engine is always constructed with
the fixed `"JC69"` model string. -/
theorem infer_gtr_always_true (c : CmdLine) :
    parsedInferGtr c = true ∧ gtrReportShown c = true ∧ treeTimeGtrArg = "JC69" := by
  have h : parsedInferGtr c = true := by
    cases hp : c.infer_gtr_present <;> simp [parsedInferGtr, storeTrueFlag, hp]
  exact ⟨h, h, rfl⟩
